import Mathlib

/-!
Shallow embedding of `src/winremote/taskmanager.py` (the task execution and
concurrency-control subsystem): task records, the category registry, the task
store with bounded history eviction, the synchronous tool wrapper produced by
`TaskManager.wrap_sync_tool`, and a small-step model of the per-category
semaphore discipline.  Timestamps are modelled as natural numbers drawn from a
monotonically increasing clock (`time.time()` is non-decreasing); `round(x, 2)`
on a duration is the identity on integer-valued times and is dropped.
-/

namespace WinRemote

/-- `TaskStatus` enum (taskmanager.py lines 19-24). -/
inductive TaskStatus where
  | PENDING
  | RUNNING
  | COMPLETED
  | FAILED
  | CANCELLED
deriving DecidableEq, Repr

/-- The `.value` string of each `TaskStatus` member. -/
def TaskStatus.toValue : TaskStatus → String
  | .PENDING => "pending"
  | .RUNNING => "running"
  | .COMPLETED => "completed"
  | .FAILED => "failed"
  | .CANCELLED => "cancelled"

/-- Terminal statuses, as enumerated in `_cleanup_old` (line 213). -/
def TaskStatus.isTerminal : TaskStatus → Bool
  | .COMPLETED => true
  | .FAILED => true
  | .CANCELLED => true
  | _ => false

/-- `ToolCategory` enum (taskmanager.py lines 27-39). -/
inductive ToolCategory where
  | DESKTOP
  | FILE
  | QUERY
  | SHELL
  | NETWORK
deriving DecidableEq, Repr

/-- The `.value` string of each `ToolCategory` member. -/
def ToolCategory.toValue : ToolCategory → String
  | .DESKTOP => "desktop"
  | .FILE => "file"
  | .QUERY => "query"
  | .SHELL => "shell"
  | .NETWORK => "network"

/-- `TOOL_CATEGORIES` dict (taskmanager.py lines 43-89), as an association
list in the source's insertion order. -/
def TOOL_CATEGORIES : List (String × ToolCategory) :=
  [("Snapshot", .DESKTOP), ("AnnotatedSnapshot", .DESKTOP), ("Click", .DESKTOP),
   ("Type", .DESKTOP), ("Scroll", .DESKTOP), ("Move", .DESKTOP),
   ("Shortcut", .DESKTOP), ("FocusWindow", .DESKTOP), ("MinimizeAll", .DESKTOP),
   ("App", .DESKTOP), ("OCR", .DESKTOP), ("ScreenRecord", .DESKTOP),
   ("LockScreen", .DESKTOP), ("Wait", .DESKTOP),
   ("FileRead", .FILE), ("FileWrite", .FILE), ("FileList", .FILE),
   ("FileSearch", .FILE), ("FileDownload", .FILE), ("FileUpload", .FILE),
   ("GetSystemInfo", .QUERY), ("GetClipboard", .QUERY), ("SetClipboard", .QUERY),
   ("ListProcesses", .QUERY), ("KillProcess", .QUERY), ("Notification", .QUERY),
   ("RegRead", .QUERY), ("RegWrite", .QUERY), ("ServiceList", .QUERY),
   ("ServiceStart", .QUERY), ("ServiceStop", .QUERY), ("TaskList", .QUERY),
   ("TaskCreate", .QUERY), ("TaskDelete", .QUERY), ("EventLog", .QUERY),
   ("Shell", .SHELL), ("Scrape", .SHELL),
   ("Ping", .NETWORK), ("PortCheck", .NETWORK), ("NetConnections", .NETWORK)]

/-- `CATEGORY_LIMITS` dict (taskmanager.py lines 92-98); total over the enum. -/
def CATEGORY_LIMITS : ToolCategory → Nat
  | .DESKTOP => 1
  | .FILE => 5
  | .QUERY => 10
  | .SHELL => 3
  | .NETWORK => 5

/-- `TOOL_CATEGORIES.get(tool_name, ToolCategory.QUERY)` — the lookup used in
`create_task` (line 171) and `wrap_sync_tool` (line 222). -/
def category_of (tool_name : String) : ToolCategory :=
  match TOOL_CATEGORIES.find? (fun kv => kv.1 = tool_name) with
  | some kv => kv.2
  | none => ToolCategory.QUERY

/-- `uuid.uuid4().hex[:12]` (line 173): the task id is the first 12 characters
of the 32-character lowercase-hex rendering of a fresh UUID, which is supplied
here as the parameter `uuidHex` since it is external randomness. -/
def make_task_id (uuidHex : String) : String :=
  String.mk (uuidHex.data.take 12)

/-- `TaskInfo` dataclass (taskmanager.py lines 101-114).  The
`threading.Event` cancellation flag is a boolean. -/
structure TaskInfo where
  task_id : String
  tool_name : String
  category : ToolCategory
  status : TaskStatus := .PENDING
  created_at : Nat
  started_at : Option Nat := none
  completed_at : Option Nat := none
  result : Option String := none
  error : Option String := none
  cancel_event : Bool := false
deriving DecidableEq, Repr

/-- `TaskInfo.duration` property (lines 116-121): `None` until `started_at`
is set, else `completed_at` (or the current time) minus `started_at`. -/
def TaskInfo.duration (t : TaskInfo) (now : Nat) : Option Int :=
  match t.started_at with
  | none => none
  | some st => some (((t.completed_at.getD now : Nat) : Int) - (st : Int))

/-- `TaskInfo.cancel` (lines 123-130): when `PENDING` or `RUNNING`, set the
cancel event, move to `CANCELLED`, stamp `completed_at`, report `True`;
otherwise leave the record untouched and report `False`. -/
def TaskInfo.cancel (t : TaskInfo) (now : Nat) : TaskInfo × Bool :=
  if t.status = .PENDING ∨ t.status = .RUNNING then
    ({ t with cancel_event := true, status := .CANCELLED,
              completed_at := some now }, true)
  else (t, false)

/-- One element of a multi-part result list.  The wrapper only inspects
whether an item has a `text` attribute (line 258): `textPart` models items
with one (e.g. `TextContent`), `blobPart` items without (e.g. images). -/
inductive Part where
  | textPart (text : String)
  | blobPart
deriving DecidableEq, Repr

/-- The shape of a handler's return value as the wrapper discriminates it
(lines 252-267): a `str`, a `list` of parts, or anything else. -/
inductive ResultVal where
  | text (s : String)
  | parts (l : List Part)
  | other
deriving DecidableEq, Repr

/-- What the wrapper returns to its caller: an annotated string, an
(possibly annotated) part list, or the handler's raw non-str non-list
value passed through (line 267). -/
inductive RetVal where
  | rstr (s : String)
  | rlist (l : List Part)
  | rother
deriving DecidableEq, Repr

/-- Outcome of calling the wrapped handler: a normal return or a raised
exception carrying `str(e)`. -/
inductive HandlerOutcome where
  | ok (r : ResultVal)
  | exn (msg : String)
deriving DecidableEq, Repr

/-- The injection loop of lines 256-260: prefix `[task:<id>] ` onto the first
item that has a `text` attribute; `none` when no item does. -/
def injectFirstText (id : String) : List Part → Option (List Part)
  | [] => none
  | .textPart s :: rest =>
      some (.textPart ("[task:" ++ id ++ "] " ++ s) :: rest)
  | .blobPart :: rest =>
      (injectFirstText id rest).map (fun l => Part.blobPart :: l)

/-- Lines 254-266: inject into the first text-bearing part, else insert a new
leading `TextContent` whose text is `[task:<id>]`. -/
def injectParts (id : String) (l : List Part) : List Part :=
  match injectFirstText id l with
  | some l' => l'
  | none => .textPart ("[task:" ++ id ++ "]") :: l

/-- Lines 251-267: annotate a successful handler result with the task id;
values that are neither `str` nor `list` are returned unchanged. -/
def annotate (id : String) : ResultVal → RetVal
  | .text s => .rstr ("[task:" ++ id ++ "] " ++ s)
  | .parts l => .rlist (injectParts id l)
  | .other => .rother

/-- The returned value carries the task id somewhere in its text. -/
def ContainsId (id : String) : RetVal → Prop
  | .rstr s => ∃ a b, s = a ++ id ++ b
  | .rlist l => ∃ s a b, Part.textPart s ∈ l ∧ s = a ++ id ++ b
  | .rother => False

/-- `needle` is an initial segment of `hay` (character lists). -/
def leadsList : List Char → List Char → Bool
  | [], _ => true
  | _ :: _, [] => false
  | a :: as, b :: bs => a = b && leadsList as bs

/-- `needle` occurs contiguously somewhere in `hay` (character lists):
a decidable substring test used to state that a phrase does or does not
appear in a message. -/
def hasSubList (needle : List Char) : List Char → Bool
  | [] => needle.isEmpty
  | b :: bs => leadsList needle (b :: bs) || hasSubList needle bs

/-- Semaphore events performed by one wrapper call on its category's
`threading.Semaphore`. -/
inductive SemEvent where
  | acq
  | rel
deriving DecidableEq, Repr

/-- The timeout error message built at line 232. -/
def timeoutMsg (c : ToolCategory) : String :=
  "Timeout waiting for " ++ c.toValue ++ " lock (another " ++ c.toValue ++
    " task is running)"

/-- `TaskManager.create_task` viewed from a single wrapper call (lines
169-176): the fresh record before insertion into the store. -/
def newTask (tool_name uuidHex : String) (now : Nat) : TaskInfo :=
  { task_id := make_task_id uuidHex
    tool_name := tool_name
    category := category_of tool_name
    created_at := now }

/-- One call of the wrapper produced by `wrap_sync_tool` (lines 220-280),
followed sequentially.  Concurrency enters through three scheduling
parameters: `acquireOk` is whether `sem.acquire(timeout=30)` returned before
the 30 s bound (line 230); `cancelBefore` is whether some other context ran
`cancel_task` between task creation and the `is_cancelled` check at line 237;
`cancelDuring` is whether one did while the handler was running (checked at
line 245; on an exception the `except` branch runs regardless).  The handler's
behaviour is the parameter `h`.  Each `time.time()` call yields the next tick
of the clock `c0, c0+1, …`.  Returns the final state of the task record, the
wrapper's return value, and the semaphore events performed. -/
def runWrapper (tool_name uuidHex : String) (c0 : Nat) (acquireOk : Bool)
    (cancelBefore : Bool) (cancelDuring : Bool) (h : HandlerOutcome) :
    TaskInfo × RetVal × List SemEvent :=
  let task := newTask tool_name uuidHex c0
  let id := task.task_id
  let c1 := c0 + 1
  let task := if cancelBefore then (task.cancel c1).1 else task
  let c2 := if cancelBefore then c1 + 1 else c1
  if ¬ acquireOk then
    -- lines 230-234: acquire timed out; the permit was never taken
    let task := { task with status := .FAILED,
                            error := some (timeoutMsg task.category),
                            completed_at := some c2 }
    (task, .rstr ("[task:" ++ id ++ "] Error: " ++ timeoutMsg task.category),
     [])
  else
    -- lines 236-278: the try/except/finally body; `finally` releases
    if task.cancel_event then
      (task, .rstr ("[task:" ++ id ++ "] Cancelled before execution"),
       [.acq, .rel])
    else
      let task := { task with status := .RUNNING, started_at := some c2 }
      let c3 := c2 + 1
      match h with
      | .exn msg =>
          let task := if cancelDuring then (task.cancel c3).1 else task
          let c4 := if cancelDuring then c3 + 1 else c3
          let task := { task with status := .FAILED, error := some msg,
                                  completed_at := some c4 }
          (task,
           .rstr ("[task:" ++ id ++ "] Error in " ++ tool_name ++ ": " ++ msg),
           [.acq, .rel])
      | .ok r =>
          let task := if cancelDuring then (task.cancel c3).1 else task
          let c4 := if cancelDuring then c3 + 1 else c3
          if task.cancel_event then
            (task, .rstr ("[task:" ++ id ++ "] Cancelled during execution"),
             [.acq, .rel])
          else
            let task := { task with status := .COMPLETED,
                                    completed_at := some c4 }
            (task, annotate id r, [.acq, .rel])

/-! ### Task store

`TaskManager._tasks` is a Python dict keyed by `task_id`; it is modelled as a
list of records in insertion order (dict iteration order), with key uniqueness
(`Nodup` of the ids) as a hypothesis where a proof needs it. -/

/-- Store lookup, `self._tasks.get(task_id)` (line 185). -/
def storeGet (store : List TaskInfo) (id : String) : Option TaskInfo :=
  store.find? (fun t => t.task_id == id)

/-- Result dict of `TaskManager.cancel_task` (lines 186-190): either the
success dict `{"status": "cancelled", ...}` or an `{"error": ...}` dict. -/
inductive CancelResult where
  | cancelled (task_id : String) (tool_name : String)
  | errorDict (msg : String)
deriving DecidableEq, Repr

/-- `TaskManager.cancel_task` (lines 182-190): look the record up, let
`TaskInfo.cancel` decide; mutation of the found record in place is modelled by
rewriting the record with that id. -/
def cancel_task (store : List TaskInfo) (id : String) (now : Nat) :
    List TaskInfo × CancelResult :=
  match storeGet store id with
  | none => (store, .errorDict ("Task " ++ id ++ " not found"))
  | some t =>
      let (t', okFlag) := t.cancel now
      if okFlag then
        (store.map (fun r => if r.task_id = id then t' else r),
         .cancelled id t.tool_name)
      else
        (store, .errorDict ("Task " ++ id ++ " is already " ++ t.status.toValue))

/-- `self._max_history` (line 160). -/
def max_history : Nat := 100

/-- The sort key of line 216: ascending `created_at`. -/
def byCreated (a b : TaskInfo) : Prop := a.created_at ≤ b.created_at

instance : DecidableRel byCreated := fun a b => Nat.decLe a.created_at b.created_at

instance : IsTotal TaskInfo byCreated := ⟨fun a b => Nat.le_total a.created_at b.created_at⟩

instance : IsTrans TaskInfo byCreated := ⟨fun _ _ _ => Nat.le_trans⟩

/-- The `completed` list of `_cleanup_old` (lines 210-214): the store's
records in a terminal state, in store order. -/
def terminalOf (store : List TaskInfo) : List TaskInfo :=
  store.filter (fun t => t.status.isTerminal)

/-- The records popped by `_cleanup_old` (lines 216-217): the terminal
records, sorted ascending by `created_at`, truncated to the surplus over
`max_history`.  (CPython's `list.sort` is a stable sort; insertion sort on
the same `≤` key selects the same records whenever `created_at` values are
distinct, and the theorems below do not depend on tie order.) -/
def victimsOf (store : List TaskInfo) : List TaskInfo :=
  ((terminalOf store).insertionSort byCreated).take
    ((terminalOf store).length - max_history)

/-- `TaskManager._cleanup_old` (lines 208-218): when more than `max_history`
terminal records exist, pop the oldest surplus from the store by id. -/
def cleanup_old (store : List TaskInfo) : List TaskInfo :=
  if (terminalOf store).length > max_history then
    store.filter (fun t => ! (victimsOf store).any (fun v => v.task_id == t.task_id))
  else store

/-- `TaskManager.create_task` (lines 169-180) at store level: build the
record, append it (dict insertion), run the eviction check. -/
def create_task (store : List TaskInfo) (tool_name uuidHex : String)
    (now : Nat) : List TaskInfo × TaskInfo :=
  let task := newTask tool_name uuidHex now
  (cleanup_old (store ++ [task]), task)

/-- Store-level history of externally visible mutations: a `create` call, a
wrapper completing its handler (lines 240-249 mutate the shared record in
place: `RUNNING`/`started_at`, then `COMPLETED`/`completed_at` — no eviction
runs on this path), or a `cancel_task` call. -/
inductive StoreOp where
  | create (tool_name uuidHex : String) (now : Nat)
  | complete (id : String) (now : Nat)
  | cancel (id : String) (now : Nat)
deriving DecidableEq, Repr

/-- Apply one store operation. -/
def applyOp (store : List TaskInfo) : StoreOp → List TaskInfo
  | .create tool_name uuidHex now => (create_task store tool_name uuidHex now).1
  | .complete id now =>
      store.map (fun t =>
        if t.task_id = id then
          { t with status := .COMPLETED, started_at := some now,
                   completed_at := some (now + 1) }
        else t)
  | .cancel id now => (cancel_task store id now).1

/-- Run a sequence of store operations from the empty store. -/
def runOps (ops : List StoreOp) : List TaskInfo :=
  ops.foldl applyOp []

/-- Number of records in a terminal state held by the store. -/
def terminalCount (store : List TaskInfo) : Nat :=
  (terminalOf store).length

/-! ### Concurrency model

Several OS threads may run wrapper calls at once (the dispatch surface calls
the wrapped tools from a thread pool).  Each thread's progress through
`wrapper` is reduced to the phases that matter for the category semaphore
(lines 230, 237-246, 276-278); `threading.Semaphore` is a counter that
`acquire` decrements when positive and `release` increments. -/

/-- Phase of one wrapper call: before the acquire attempt; holding the permit
before the handler; executing the handler; holding after the handler body
(success, cancellation, or exception — all reach `finally`); finished. -/
inductive Phase where
  | ready
  | acquired
  | running
  | finishedBody
  | done
deriving DecidableEq, Repr

/-- One thread executing one wrapper call for a tool of category `cat`. -/
structure Thr where
  cat : ToolCategory
  ph : Phase
deriving DecidableEq, Repr

/-- Global state: remaining permits of each category's semaphore, and the
threads. -/
structure Sys where
  avail : ToolCategory → Nat
  thrs : List Thr

/-- Phases during which the thread holds its category's permit. -/
def Phase.holdsPermit : Phase → Bool
  | .acquired => true
  | .running => true
  | .finishedBody => true
  | _ => false

/-- The thread is inside the handler call of line 243. -/
def Phase.inHandler : Phase → Bool
  | .running => true
  | _ => false

/-- Number of threads of category `c` whose phase satisfies `p`. -/
def countIn (s : Sys) (p : Phase → Bool) (c : ToolCategory) : Nat :=
  s.thrs.countP (fun t => t.cat = c ∧ p t.ph)

/-- Decrement one category's permit count. -/
def decr (av : ToolCategory → Nat) (c : ToolCategory) : ToolCategory → Nat :=
  fun c' => if c' = c then av c' - 1 else av c'

/-- Increment one category's permit count. -/
def incr (av : ToolCategory → Nat) (c : ToolCategory) : ToolCategory → Nat :=
  fun c' => if c' = c then av c' + 1 else av c'

/-- Interleaving semantics of concurrent wrapper calls.  `acquire` is the
successful `sem.acquire(timeout=30)` of line 230 (needs a free permit);
`timeout` is the failing one (the permit count is untouched); `startHandler`
enters the call of line 243; `skipHandler` is the cancelled-before-execution
return of lines 237-238; `endHandler` is the handler returning or raising;
`release` is the `finally` of lines 276-278. -/
inductive Step : Sys → Sys → Prop
  | acquire (av : ToolCategory → Nat) (l r : List Thr) (c : ToolCategory)
      (hpos : 0 < av c) :
      Step ⟨av, l ++ ⟨c, .ready⟩ :: r⟩ ⟨decr av c, l ++ ⟨c, .acquired⟩ :: r⟩
  | timeout (av : ToolCategory → Nat) (l r : List Thr) (c : ToolCategory) :
      Step ⟨av, l ++ ⟨c, .ready⟩ :: r⟩ ⟨av, l ++ ⟨c, .done⟩ :: r⟩
  | startHandler (av : ToolCategory → Nat) (l r : List Thr)
      (c : ToolCategory) :
      Step ⟨av, l ++ ⟨c, .acquired⟩ :: r⟩ ⟨av, l ++ ⟨c, .running⟩ :: r⟩
  | skipHandler (av : ToolCategory → Nat) (l r : List Thr)
      (c : ToolCategory) :
      Step ⟨av, l ++ ⟨c, .acquired⟩ :: r⟩ ⟨av, l ++ ⟨c, .finishedBody⟩ :: r⟩
  | endHandler (av : ToolCategory → Nat) (l r : List Thr)
      (c : ToolCategory) :
      Step ⟨av, l ++ ⟨c, .running⟩ :: r⟩ ⟨av, l ++ ⟨c, .finishedBody⟩ :: r⟩
  | release (av : ToolCategory → Nat) (l r : List Thr) (c : ToolCategory) :
      Step ⟨av, l ++ ⟨c, .finishedBody⟩ :: r⟩ ⟨incr av c, l ++ ⟨c, .done⟩ :: r⟩

/-- Initial state: the semaphores are constructed with `CATEGORY_LIMITS`
permits (lines 155-157) and every thread is about to attempt its acquire. -/
def initSys (cats : List ToolCategory) : Sys :=
  ⟨CATEGORY_LIMITS, cats.map (fun c => ⟨c, .ready⟩)⟩

/-- States reachable from an initial state. -/
inductive Reach : Sys → Prop
  | init (cats : List ToolCategory) : Reach (initSys cats)
  | step {s s' : Sys} : Reach s → Step s s' → Reach s'

/-- A concrete `PENDING` record, as `create_task` would make it. -/
def samplePending : TaskInfo :=
  { task_id := "a", tool_name := "Click", category := .DESKTOP,
    created_at := 0 }

/-- A concrete record already in the terminal state `COMPLETED`. -/
def sampleDone : TaskInfo :=
  { task_id := "b", tool_name := "Shell", category := .SHELL,
    status := .COMPLETED, created_at := 0, completed_at := some 1 }

/-- A history of store operations: 101 tasks are created (no eviction fires —
all records are still `PENDING` when each `create` runs its cleanup), then all
101 complete.  No further `create` runs, so no eviction ever does. -/
def overflowOps : List StoreOp :=
  ((List.range 101).map (fun i => .create "Ping" (toString i) i)) ++
    ((List.range 101).map (fun i => .complete (toString i) (200 + i)))

/-! ## Theorems -/

/-- When the injection loop finds a text-bearing part, the produced list has
a text part carrying the task id. -/
theorem injectFirstText_contains (id : String) :
    ∀ l l', injectFirstText id l = some l' →
      ∃ s a b, Part.textPart s ∈ l' ∧ s = a ++ id ++ b := by
  intro l
  induction l with
  | nil => intro l' hl; simp [injectFirstText] at hl
  | cons p rest ih =>
      intro l' hl
      cases p with
      | textPart s =>
          simp only [injectFirstText, Option.some.injEq] at hl
          exact ⟨"[task:" ++ id ++ "] " ++ s, "[task:", "] " ++ s,
            hl ▸ List.mem_cons_self _ _, by simp [String.append_assoc]⟩
      | blobPart =>
          simp only [injectFirstText, Option.map_eq_some'] at hl
          obtain ⟨l'', hrec, rfl⟩ := hl
          obtain ⟨s, a, b, hm, he⟩ := ih l'' hrec
          exact ⟨s, a, b, List.mem_cons_of_mem _ hm, he⟩

/-- The annotated part list always carries the task id in some text part. -/
theorem containsId_injectParts (id : String) (l : List Part) :
    ContainsId id (.rlist (injectParts id l)) := by
  unfold injectParts
  cases hfind : injectFirstText id l with
  | some l' =>
      obtain ⟨s, a, b, hm, he⟩ := injectFirstText_contains id l l' hfind
      exact ⟨s, a, b, hm, he⟩
  | none =>
      exact ⟨"[task:" ++ id ++ "]", "[task:", "]",
        List.mem_cons_self _ _, rfl⟩

/-- C8: `category_of` is a total deterministic function on operation names —
the registry binds every name at most once, every unmapped name resolves to
`QUERY` — and `limit_of` is total over the category enum with values
DESKTOP = 1, FILE = 5, QUERY = 10, SHELL = 3, NETWORK = 5, all positive. -/
theorem claim8_category_registry_total (n : String)
    (hn : n ∉ TOOL_CATEGORIES.map Prod.fst) :
    (TOOL_CATEGORIES.map Prod.fst).Nodup ∧
    category_of n = ToolCategory.QUERY ∧
    (∀ name : String, ∃! c : ToolCategory, category_of name = c) ∧
    CATEGORY_LIMITS .DESKTOP = 1 ∧ CATEGORY_LIMITS .FILE = 5 ∧
    CATEGORY_LIMITS .QUERY = 10 ∧ CATEGORY_LIMITS .SHELL = 3 ∧
    CATEGORY_LIMITS .NETWORK = 5 ∧ ∀ c, 0 < CATEGORY_LIMITS c := by
  refine ⟨by decide, ?_, ?_, rfl, rfl, rfl, rfl, rfl, fun c => by cases c <;> decide⟩
  · unfold category_of
    have : TOOL_CATEGORIES.find? (fun kv => kv.1 = n) = none := by
      rw [List.find?_eq_none]
      intro kv hkv
      simp only [decide_eq_true_eq]
      intro heq
      exact hn (List.mem_map.mpr ⟨kv, hkv, heq⟩)
    rw [this]
  · intro name
    exact ⟨category_of name, rfl, fun y hy => hy.symm⟩

/-- C8 witness: the registry facts hold, instantiated at the unmapped
operation name "NotATool". -/
theorem claim8_witness :
    ("NotATool" ∉ TOOL_CATEGORIES.map Prod.fst) ∧
    category_of "NotATool" = ToolCategory.QUERY :=
  ⟨by decide, (claim8_category_registry_total "NotATool" (by decide)).2.1⟩

/-- C1: a handler that raises is absorbed by the wrapper: the record ends
`FAILED` with `completed_at` set and `error` equal to the raised message, and
the wrapper returns the annotated error string `[task:<id>] Error in <tool>:
<msg>` (an ordinary value — the model's exception branch returns instead of
propagating), which contains the task id. -/
theorem claim1_handler_exception_absorbed (tool uuidHex : String) (c0 : Nat)
    (cancelDuring : Bool) (msg : String) :
    (runWrapper tool uuidHex c0 true false cancelDuring (.exn msg)).1.status
        = .FAILED ∧
    (runWrapper tool uuidHex c0 true false cancelDuring (.exn msg)).1.error
        = some msg ∧
    (runWrapper tool uuidHex c0 true false cancelDuring
        (.exn msg)).1.completed_at.isSome = true ∧
    (runWrapper tool uuidHex c0 true false cancelDuring (.exn msg)).2.1 =
      .rstr ("[task:" ++ make_task_id uuidHex ++ "] Error in " ++ tool ++
        ": " ++ msg) ∧
    ContainsId (make_task_id uuidHex)
      (runWrapper tool uuidHex c0 true false cancelDuring (.exn msg)).2.1 := by
  cases cancelDuring <;>
    exact ⟨rfl, rfl, rfl, rfl,
      ⟨"[task:", "] Error in " ++ tool ++ ": " ++ msg,
        by simp [newTask, String.append_assoc]⟩⟩

/-- C4 counterexample: on the acquire-timeout path the stored error is the
source's `Timeout waiting for <category> lock (another <category> task is
running)`, which is not the claimed `timeout waiting for <category>
concurrency slot` — the phrase "concurrency slot" occurs nowhere in it
(`splitOn` finds a single fragment). -/
theorem claim4_counterexample :
    (runWrapper "Click" "abcdef0123456789abcdef0123456789" 0 false false false
        (.ok (.text "x"))).1.error = some (timeoutMsg .DESKTOP) ∧
    timeoutMsg .DESKTOP
        ≠ "timeout waiting for desktop concurrency slot" ∧
    hasSubList "concurrency slot".data (timeoutMsg .DESKTOP).data = false := by
  refine ⟨rfl, by decide, by decide⟩

/-- C4 (amended): when the semaphore acquire times out the record ends
`FAILED` with `completed_at` set and error `Timeout waiting for <category>
lock (another <category> task is running)` — a message referencing the
category, though not the claimed "concurrency slot" wording — the wrapper
returns `[task:<id>] Error: <that message>`, and the handler is never invoked
(the call's outcome is independent of the handler). -/
theorem claim4_slot_timeout_failfast (tool uuidHex : String) (c0 : Nat)
    (cb cd : Bool) (h : HandlerOutcome) :
    (runWrapper tool uuidHex c0 false cb cd h).1.status = .FAILED ∧
    (runWrapper tool uuidHex c0 false cb cd h).1.error
        = some (timeoutMsg (category_of tool)) ∧
    (runWrapper tool uuidHex c0 false cb cd h).1.completed_at.isSome = true ∧
    (runWrapper tool uuidHex c0 false cb cd h).2.1 =
      .rstr ("[task:" ++ make_task_id uuidHex ++ "] Error: " ++
        timeoutMsg (category_of tool)) ∧
    ContainsId (make_task_id uuidHex)
      (runWrapper tool uuidHex c0 false cb cd h).2.1 ∧
    (∀ h', runWrapper tool uuidHex c0 false cb cd h
        = runWrapper tool uuidHex c0 false cb cd h') := by
  cases cb <;>
    exact ⟨rfl, rfl, rfl, rfl,
      ⟨"[task:",
        "] Error: " ++ timeoutMsg (category_of tool),
        by simp [newTask, TaskInfo.cancel, String.append_assoc]⟩,
      fun h' => rfl⟩

/-- C3 counterexample: a handler returning a value that is neither a string
nor a list (line 267 of taskmanager.py) completes the task, yet the wrapper
passes the raw value through with no task id anywhere in it — so "for every
invocation … the value returned contains the task's ID" fails. -/
theorem claim3_counterexample :
    (runWrapper "Click" "abcdef0123456789abcdef0123456789" 0 true false false
        (.ok .other)).1.status = .COMPLETED ∧
    (runWrapper "Click" "abcdef0123456789abcdef0123456789" 0 true false false
        (.ok .other)).2.1 = .rother ∧
    ¬ ContainsId (make_task_id "abcdef0123456789abcdef0123456789")
        RetVal.rother :=
  ⟨rfl, rfl, fun hfalse => hfalse⟩

/-- C3 (amended): every terminal outcome except a success whose value is
neither a string nor a list returns a value containing the task id; a string
result becomes `[task:<id>] <string>`; a list result has the id injected into
its first text-bearing part or prepended as a new leading text part; and the
task id is the first 12 characters of the 32-character uuid hex (hence 12 hex
characters).  A success value of any other shape is passed through
unannotated. -/
theorem claim3_result_id_tagging (tool uuidHex : String) (c0 : Nat)
    (aok cb cd : Bool) (h : HandlerOutcome)
    (hnot : ¬ (aok = true ∧ cb = false ∧ cd = false ∧ h = .ok .other)) :
    ContainsId (make_task_id uuidHex)
      (runWrapper tool uuidHex c0 aok cb cd h).2.1 ∧
    (∀ s : String,
      (runWrapper tool uuidHex c0 true false false (.ok (.text s))).2.1
        = .rstr ("[task:" ++ make_task_id uuidHex ++ "] " ++ s)) ∧
    (∀ l : List Part,
      (runWrapper tool uuidHex c0 true false false (.ok (.parts l))).2.1
        = .rlist (injectParts (make_task_id uuidHex) l)) ∧
    (uuidHex.data.length = 32 → (make_task_id uuidHex).data.length = 12) ∧
    (∀ ch ∈ (make_task_id uuidHex).data, ch ∈ uuidHex.data) := by
  refine ⟨?_, fun s => rfl, fun l => rfl, ?_, ?_⟩
  · cases aok with
    | false =>
        cases cb <;>
          exact ⟨"[task:", "] Error: " ++ timeoutMsg (category_of tool),
            by simp [newTask, TaskInfo.cancel, String.append_assoc]⟩
    | true =>
        cases cb with
        | true => exact ⟨"[task:", "] Cancelled before execution", rfl⟩
        | false =>
            cases h with
            | exn m =>
                cases cd <;>
                  exact ⟨"[task:", "] Error in " ++ tool ++ ": " ++ m,
                    by simp [newTask, TaskInfo.cancel, String.append_assoc]⟩
            | ok r =>
                cases cd with
                | true => exact ⟨"[task:", "] Cancelled during execution", rfl⟩
                | false =>
                    cases r with
                    | text s => exact ⟨"[task:", "] " ++ s,
                        by simp [newTask, String.append_assoc]⟩
                    | parts l => exact containsId_injectParts _ l
                    | other => exact absurd ⟨rfl, rfl, rfl, rfl⟩ hnot
  · intro hlen
    simp [make_task_id, hlen]
  · intro ch hch
    simp only [make_task_id] at hch
    exact (List.take_sublist 12 uuidHex.data).mem hch

/-- C3 witness: the amended statement at a concrete run — handler returns
the string "done". -/
theorem claim3_witness :
    (¬ (true = true ∧ false = false ∧ false = false ∧
        HandlerOutcome.ok (.text "done") = HandlerOutcome.ok .other)) ∧
    ContainsId (make_task_id "abcdef0123456789abcdef0123456789")
      (runWrapper "Click" "abcdef0123456789abcdef0123456789" 0 true false
        false (.ok (.text "done"))).2.1 :=
  ⟨by decide,
   (claim3_result_id_tagging "Click" "abcdef0123456789abcdef0123456789" 0
      true false false (.ok (.text "done")) (by decide)).1⟩

/-- C9: one wrapper call performs exactly one release for each successful
acquire: when the acquire succeeded the event trace is `[acq, rel]` on every
exit path (normal completion, cancellation before or after the handler, and
handler exception); when it timed out the trace is empty — so releases always
balance acquires and the permit count is conserved. -/
theorem claim9_semaphore_balanced (tool uuidHex : String) (c0 : Nat)
    (aok cb cd : Bool) (h : HandlerOutcome) :
    (runWrapper tool uuidHex c0 aok cb cd h).2.2
        = (if aok then [.acq, .rel] else []) ∧
    ((runWrapper tool uuidHex c0 aok cb cd h).2.2.count SemEvent.rel
        = (runWrapper tool uuidHex c0 aok cb cd h).2.2.count SemEvent.acq) := by
  cases aok <;> cases cb <;> cases cd <;>
    cases h with
    | ok r => exact ⟨rfl, rfl⟩
    | exn m => exact ⟨rfl, rfl⟩

/-- C5: `cancel_task` on an unknown id returns the not-found error dict and
leaves the store alone; on a `PENDING` or `RUNNING` record it sets the cancel
event, moves the record to `CANCELLED` with `completed_at = now`, and returns
the success dict; on a record already terminal it returns the
"already <status>" error dict and leaves the store alone.  Every path is a
value of the total function `cancel_task` — none raises. -/
theorem claim5_cancel_outcomes (store : List TaskInfo) (id : String)
    (now : Nat) :
    (storeGet store id = none →
      cancel_task store id now
        = (store, .errorDict ("Task " ++ id ++ " not found"))) ∧
    (∀ t, storeGet store id = some t →
      (t.status = .PENDING ∨ t.status = .RUNNING) →
      cancel_task store id now
        = (store.map (fun r => if r.task_id = id then
              { t with cancel_event := true, status := .CANCELLED,
                       completed_at := some now } else r),
           .cancelled id t.tool_name)) ∧
    (∀ t, storeGet store id = some t → t.status.isTerminal = true →
      cancel_task store id now
        = (store,
           .errorDict ("Task " ++ id ++ " is already " ++ t.status.toValue))) := by
  refine ⟨?_, ?_, ?_⟩
  · intro hnone
    simp [cancel_task, hnone]
  · intro t hsome hpr
    rcases hpr with hp | hp <;> simp [cancel_task, hsome, TaskInfo.cancel, hp]
  · intro t hsome hterm
    cases ht : t.status <;> rw [ht] at hterm <;>
      simp [TaskStatus.isTerminal] at hterm <;>
      simp [cancel_task, hsome, TaskInfo.cancel, ht]

/-- C5 witness: the three outcomes at concrete stores. -/
theorem claim5_witness :
    (storeGet ([] : List TaskInfo) "c" = none ∧
      cancel_task [] "c" 9 = ([], .errorDict "Task c not found")) ∧
    (storeGet [samplePending] "a" = some samplePending ∧
      cancel_task [samplePending] "a" 9
        = ([{ samplePending with cancel_event := true, status := .CANCELLED, completed_at := some 9 }],
           .cancelled "a" "Click")) ∧
    (storeGet [sampleDone] "b" = some sampleDone ∧
      cancel_task [sampleDone] "b" 9
        = ([sampleDone], .errorDict "Task b is already completed")) := by
  refine ⟨⟨rfl, (claim5_cancel_outcomes [] "c" 9).1 rfl⟩, ⟨rfl, ?_⟩, ⟨rfl, ?_⟩⟩
  · have h := (claim5_cancel_outcomes [samplePending] "a" 9).2.1 samplePending
      rfl (Or.inl rfl)
    simpa [samplePending] using h
  · have h := (claim5_cancel_outcomes [sampleDone] "b" 9).2.2 sampleDone rfl rfl
    simpa [sampleDone] using h

/-- C10: a cancel request against a record already in a terminal state is a
pure no-op on the record and the store — `TaskInfo.cancel` reports `False`
and returns the record with every field (including `cancel_event`) unchanged,
and `cancel_task` returns the untouched store with the "already <status>"
error dict. -/
theorem claim10_terminal_cancel_frame (store : List TaskInfo) (id : String)
    (now : Nat) (t : TaskInfo) (hfind : storeGet store id = some t)
    (hterm : t.status.isTerminal = true) :
    cancel_task store id now
      = (store,
         .errorDict ("Task " ++ id ++ " is already " ++ t.status.toValue)) ∧
    (t.cancel now).2 = false ∧
    (t.cancel now).1 = t := by
  have hnp : ¬ (t.status = .PENDING ∨ t.status = .RUNNING) := by
    cases ht : t.status <;> rw [ht] at hterm <;>
      simp_all [TaskStatus.isTerminal]
  refine ⟨?_, ?_, ?_⟩
  · cases ht : t.status <;> rw [ht] at hterm <;>
      simp [TaskStatus.isTerminal] at hterm <;>
      simp [cancel_task, hfind, TaskInfo.cancel, ht]
  · simp [TaskInfo.cancel, hnp]
  · simp [TaskInfo.cancel, hnp]

/-- C10 witness: cancelling the already-`COMPLETED` record `sampleDone`. -/
theorem claim10_witness :
    (storeGet [sampleDone] "b" = some sampleDone ∧
      sampleDone.status.isTerminal = true) ∧
    cancel_task [sampleDone] "b" 9
      = ([sampleDone],
         .errorDict ("Task " ++ "b" ++ " is already "
           ++ sampleDone.status.toValue)) ∧
    (sampleDone.cancel 9).2 = false ∧
    (sampleDone.cancel 9).1 = sampleDone :=
  ⟨⟨rfl, rfl⟩, claim10_terminal_cancel_frame [sampleDone] "b" 9 sampleDone rfl rfl⟩

/-- C7 counterexample: the acquire-timeout outcome is terminal, yet
`started_at` was never set, so `duration` is `None` — the claim's
"duration is non-null" fails for that terminal outcome. -/
theorem claim7_counterexample :
    (runWrapper "Click" "abcdef0123456789abcdef0123456789" 0 false false false
        (.ok (.text "x"))).1.status.isTerminal = true ∧
    (runWrapper "Click" "abcdef0123456789abcdef0123456789" 0 false false false
        (.ok (.text "x"))).1.duration 99 = none :=
  ⟨rfl, rfl⟩

/-- C7 (amended): after every wrapper call the record's status is terminal
and `completed_at` is set; whenever the handler was actually started
(acquire succeeded and the task was not cancelled while pending) `duration`
is non-null and ≥ 0; on the acquire-timeout and cancelled-before-execution
paths `started_at` stays null, so `duration` is null. -/
theorem claim7_terminal_record (tool uuidHex : String) (c0 : Nat)
    (aok cb cd : Bool) (h : HandlerOutcome) (now : Nat) :
    (runWrapper tool uuidHex c0 aok cb cd h).1.status.isTerminal = true ∧
    (runWrapper tool uuidHex c0 aok cb cd h).1.completed_at.isSome = true ∧
    ((aok = true ∧ cb = false) →
      ∃ d : Int, (runWrapper tool uuidHex c0 aok cb cd h).1.duration now
          = some d ∧ 0 ≤ d) ∧
    ((aok = false ∨ cb = true) →
      (runWrapper tool uuidHex c0 aok cb cd h).1.duration now = none) := by
  cases aok with
  | false =>
      cases cb <;>
        exact ⟨rfl, rfl, fun hc => absurd hc.1 (by decide), fun _ => rfl⟩
  | true =>
    cases cb with
    | true =>
        exact ⟨rfl, rfl, fun hc => absurd hc.2 (by decide), fun _ => rfl⟩
    | false =>
      cases h with
      | exn m =>
          cases cd with
          | false =>
              exact ⟨rfl, rfl,
                fun _ => ⟨((c0 + 2 : Nat) : Int) - ((c0 + 1 : Nat) : Int),
                  rfl, by push_cast; omega⟩,
                fun hc => absurd hc (by decide)⟩
          | true =>
              exact ⟨rfl, rfl,
                fun _ => ⟨((c0 + 3 : Nat) : Int) - ((c0 + 1 : Nat) : Int),
                  rfl, by push_cast; omega⟩,
                fun hc => absurd hc (by decide)⟩
      | ok r =>
          cases cd with
          | false =>
              exact ⟨rfl, rfl,
                fun _ => ⟨((c0 + 2 : Nat) : Int) - ((c0 + 1 : Nat) : Int),
                  rfl, by push_cast; omega⟩,
                fun hc => absurd hc (by decide)⟩
          | true =>
              exact ⟨rfl, rfl,
                fun _ => ⟨((c0 + 2 : Nat) : Int) - ((c0 + 1 : Nat) : Int),
                  rfl, by push_cast; omega⟩,
                fun hc => absurd hc (by decide)⟩

/-- C7 witness: a completed run has a non-negative duration; a timed-out run
has a null duration. -/
theorem claim7_witness :
    (∃ d : Int, (runWrapper "Click" "abc" 0 true false false
        (.ok (.text "x"))).1.duration 99 = some d ∧ 0 ≤ d) ∧
    (runWrapper "Click" "abc" 0 false false false
        (.ok (.text "x"))).1.duration 99 = none :=
  ⟨(claim7_terminal_record "Click" "abc" 0 true false false (.ok (.text "x"))
      99).2.2.1 ⟨rfl, rfl⟩,
   (claim7_terminal_record "Click" "abc" 0 false false false (.ok (.text "x"))
      99).2.2.2 (Or.inl rfl)⟩

/-- Semaphore discipline invariant: for every category, free permits plus
threads currently holding a permit always equal the category's limit. -/
theorem reach_permit_invariant {s : Sys} (hs : Reach s) (c : ToolCategory) :
    s.avail c + countIn s Phase.holdsPermit c = CATEGORY_LIMITS c := by
  induction hs with
  | init cats =>
      simp only [initSys, countIn, List.countP_map]
      have hz : List.countP
          ((fun t : Thr => decide (t.cat = c ∧ t.ph.holdsPermit = true)) ∘
            (fun c' => ⟨c', .ready⟩)) cats = 0 := by
        rw [List.countP_eq_zero]
        intro a _
        simp [Phase.holdsPermit]
      rw [hz]
      omega
  | step hr hstep ih =>
      cases hstep with
      | acquire av l r c' hpos =>
          simp only [countIn, List.countP_append, List.countP_cons] at ih ⊢
          by_cases hc : c = c'
          · subst hc
            simp only [decr, if_pos rfl] at ih ⊢
            simp only [Phase.holdsPermit, decide_eq_true_eq] at ih ⊢
            simp at ih ⊢
            omega
          · simp only [decr, if_neg hc] at ih ⊢
            simp only [Phase.holdsPermit, decide_eq_true_eq] at ih ⊢
            simp [Ne.symm hc] at ih ⊢
            omega
      | timeout av l r c' =>
          simp only [countIn, List.countP_append, List.countP_cons] at ih ⊢
          simp only [Phase.holdsPermit] at ih ⊢
          simp at ih ⊢
          omega
      | startHandler av l r c' =>
          simp only [countIn, List.countP_append, List.countP_cons] at ih ⊢
          by_cases hc : c = c'
          · subst hc; simp [Phase.holdsPermit] at ih ⊢; omega
          · simp [Phase.holdsPermit, Ne.symm hc] at ih ⊢; omega
      | skipHandler av l r c' =>
          simp only [countIn, List.countP_append, List.countP_cons] at ih ⊢
          by_cases hc : c = c'
          · subst hc; simp [Phase.holdsPermit] at ih ⊢; omega
          · simp [Phase.holdsPermit, Ne.symm hc] at ih ⊢; omega
      | endHandler av l r c' =>
          simp only [countIn, List.countP_append, List.countP_cons] at ih ⊢
          by_cases hc : c = c'
          · subst hc; simp [Phase.holdsPermit] at ih ⊢; omega
          · simp [Phase.holdsPermit, Ne.symm hc] at ih ⊢; omega
      | release av l r c' =>
          simp only [countIn, List.countP_append, List.countP_cons] at ih ⊢
          by_cases hc : c = c'
          · subst hc
            simp only [incr, if_pos rfl] at ih ⊢
            simp [Phase.holdsPermit] at ih ⊢
            omega
          · simp only [incr, if_neg hc] at ih ⊢
            simp [Phase.holdsPermit, Ne.symm hc] at ih ⊢
            omega

/-- C2: in every reachable interleaving of concurrent wrapper calls, for
every category at most `CATEGORY_LIMITS` of its threads are inside the
handler call at once; in particular at most `CATEGORY_LIMITS DESKTOP = 1`
DESKTOP handler executes at any instant, however many DESKTOP calls run
concurrently. -/
theorem claim2_category_limit (s : Sys) (hs : Reach s) :
    (∀ c, countIn s Phase.inHandler c ≤ CATEGORY_LIMITS c) ∧
    countIn s Phase.inHandler .DESKTOP ≤ 1 := by
  have hmain : ∀ c, countIn s Phase.inHandler c ≤ CATEGORY_LIMITS c := by
    intro c
    have hinv := reach_permit_invariant hs c
    have hmono : countIn s Phase.inHandler c
        ≤ countIn s Phase.holdsPermit c := by
      apply List.countP_mono_left
      intro t _ ht
      simp only [decide_eq_true_eq] at ht ⊢
      refine ⟨ht.1, ?_⟩
      cases hph : t.ph <;> rw [hph] at ht <;>
        simp_all [Phase.inHandler, Phase.holdsPermit]
    omega
  exact ⟨hmain, hmain .DESKTOP⟩

/-- C2 witness: a state reachable by two concurrent DESKTOP wrapper calls —
one acquired the single permit and is inside its handler, the other still
waits — has exactly one executing DESKTOP handler, within the limit. -/
theorem claim2_witness :
    Reach ⟨decr CATEGORY_LIMITS .DESKTOP,
           [⟨.DESKTOP, .running⟩, ⟨.DESKTOP, .ready⟩]⟩ ∧
    countIn ⟨decr CATEGORY_LIMITS .DESKTOP,
             [⟨.DESKTOP, .running⟩, ⟨.DESKTOP, .ready⟩]⟩
        Phase.inHandler .DESKTOP = 1 ∧
    countIn ⟨decr CATEGORY_LIMITS .DESKTOP,
             [⟨.DESKTOP, .running⟩, ⟨.DESKTOP, .ready⟩]⟩
        Phase.inHandler .DESKTOP ≤ 1 := by
  have h1 : Step (initSys [.DESKTOP, .DESKTOP])
      ⟨decr CATEGORY_LIMITS .DESKTOP,
       [⟨.DESKTOP, .acquired⟩, ⟨.DESKTOP, .ready⟩]⟩ :=
    Step.acquire CATEGORY_LIMITS [] [⟨.DESKTOP, .ready⟩] .DESKTOP (by decide)
  have h2 : Step
      ⟨decr CATEGORY_LIMITS .DESKTOP,
       [⟨.DESKTOP, .acquired⟩, ⟨.DESKTOP, .ready⟩]⟩
      ⟨decr CATEGORY_LIMITS .DESKTOP,
       [⟨.DESKTOP, .running⟩, ⟨.DESKTOP, .ready⟩]⟩ :=
    Step.startHandler (decr CATEGORY_LIMITS .DESKTOP) [] [⟨.DESKTOP, .ready⟩]
      .DESKTOP
  have hr : Reach ⟨decr CATEGORY_LIMITS .DESKTOP,
      [⟨.DESKTOP, .running⟩, ⟨.DESKTOP, .ready⟩]⟩ :=
    Reach.step (Reach.step (Reach.init [.DESKTOP, .DESKTOP]) h1) h2
  exact ⟨hr, rfl, (claim2_category_limit _ hr).2⟩

/-- Filtering out one record by its id removes exactly one element when the
store's ids are unique. -/
theorem length_filter_ne_one (l : List TaskInfo) (v : TaskInfo)
    (hnd : (l.map TaskInfo.task_id).Nodup) (hv : v ∈ l) :
    (l.filter (fun t => ! (v.task_id == t.task_id))).length = l.length - 1 := by
  induction l with
  | nil => cases hv
  | cons a l ih =>
      rw [List.map_cons, List.nodup_cons] at hnd
      rcases List.mem_cons.mp hv with rfl | hv'
      · rw [List.filter_cons_of_neg (by simp)]
        have heq : l.filter (fun t => ! (v.task_id == t.task_id)) = l := by
          rw [List.filter_eq_self]
          intro t ht
          have hmem : t.task_id ∈ l.map TaskInfo.task_id :=
            List.mem_map_of_mem _ ht
          have hne : v.task_id ≠ t.task_id := fun he => hnd.1 (he ▸ hmem)
          simp [hne]
        rw [heq, List.length_cons]
        omega
      · have hne : v.task_id ≠ a.task_id := by
          intro he
          exact hnd.1 (he ▸ List.mem_map_of_mem TaskInfo.task_id hv')
        rw [List.filter_cons_of_pos (by simp [hne]), List.length_cons,
          ih hnd.2 hv']
        have hpos : 0 < l.length :=
          List.length_pos.mpr (List.ne_nil_of_mem hv')
        simp only [List.length_cons]
        omega

/-- Popping the members of `sub` from `l` by id removes exactly `sub.length`
elements when all ids involved are unique and `sub ⊆ l`. -/
theorem countP_remove_by_id (sub : List TaskInfo) :
    ∀ l : List TaskInfo, (l.map TaskInfo.task_id).Nodup →
      (∀ v ∈ sub, v ∈ l) → (sub.map TaskInfo.task_id).Nodup →
      List.countP (fun t => ! sub.any (fun v => v.task_id == t.task_id)) l
        = l.length - sub.length := by
  induction sub with
  | nil => intro l _ _ _; simp
  | cons v rest ih =>
      intro l hnd hsub hsubnd
      rw [List.map_cons, List.nodup_cons] at hsubnd
      have hstep :
          List.countP
              (fun t => ! (v :: rest).any (fun w => w.task_id == t.task_id)) l
            = List.countP
                (fun t => ! rest.any (fun w => w.task_id == t.task_id))
                (l.filter (fun t => ! (v.task_id == t.task_id))) := by
        rw [List.countP_filter]
        apply List.countP_congr
        intro t _
        simp only [List.any_cons, Bool.not_or, Bool.and_eq_true,
          Bool.not_eq_true']
        tauto
      rw [hstep]
      have hrec := ih (l.filter (fun t => ! (v.task_id == t.task_id)))
        (List.Nodup.sublist ((List.filter_sublist l).map _) hnd)
        (fun w hw => List.mem_filter.mpr
          ⟨hsub w (List.mem_cons_of_mem _ hw), by
            have hmem : w.task_id ∈ rest.map TaskInfo.task_id :=
              List.mem_map_of_mem _ hw
            have hne : v.task_id ≠ w.task_id := fun he => hsubnd.1 (he ▸ hmem)
            simp [hne]⟩)
        hsubnd.2
      rw [hrec, length_filter_ne_one l v hnd (hsub v (List.mem_cons_self v rest)),
        List.length_cons]
      omega

set_option maxRecDepth 1000000 in
/-- C6 counterexample: after `overflowOps` (101 creates, then the 101 tasks
complete) the store holds 101 terminal records — the terminal count exceeds
the configured maximum of 100, because eviction only runs inside
`create_task`, never when a task reaches a terminal state. -/
theorem claim6_counterexample :
    terminalCount (runOps overflowOps) = 101 ∧ max_history = 100 ∧
    100 < terminalCount (runOps overflowOps) := by
  have h : terminalCount (runOps overflowOps) = 101 := by decide
  exact ⟨h, rfl, by omega⟩

/-- C6 (amended): whenever eviction runs (it runs only inside `create_task`),
it brings the terminal count to `min (count, max_history)`, removes only
terminal records — the non-terminal records are exactly preserved — and
every evicted record is terminal and no younger (by `created_at`) than any
terminal record kept.  Between evictions, tasks reaching a terminal state can
push the terminal count past `max_history` (see the counterexample). -/
theorem claim6_bounded_history (store : List TaskInfo)
    (hnd : (store.map TaskInfo.task_id).Nodup) :
    terminalCount (cleanup_old store)
        = min (terminalCount store) max_history ∧
    (cleanup_old store).filter (fun t => ! t.status.isTerminal)
        = store.filter (fun t => ! t.status.isTerminal) ∧
    ∀ e ∈ store, e ∉ cleanup_old store → e.status.isTerminal = true ∧
      ∀ k ∈ cleanup_old store, k.status.isTerminal = true →
        e.created_at ≤ k.created_at := by
  by_cases hlen : (terminalOf store).length > max_history
  · have hres : cleanup_old store
        = store.filter
            (fun t => ! (victimsOf store).any (fun v => v.task_id == t.task_id)) := by
      unfold cleanup_old
      rw [if_pos hlen]
    have hperm : List.Perm ((terminalOf store).insertionSort byCreated)
        (terminalOf store) :=
      List.perm_insertionSort _ _
    have hvl : (victimsOf store).length
        = (terminalOf store).length - max_history := by
      unfold victimsOf
      rw [List.length_take, hperm.length_eq]
      omega
    have hv_terms : ∀ v ∈ victimsOf store, v ∈ terminalOf store := by
      intro v hv
      exact hperm.mem_iff.mp ((List.take_sublist _ _).subset hv)
    have hv_store : ∀ v ∈ victimsOf store, v ∈ store := fun v hv =>
      (List.mem_filter.mp (hv_terms v hv)).1
    have hterm_nd : ((terminalOf store).map TaskInfo.task_id).Nodup :=
      List.Nodup.sublist ((List.filter_sublist store).map _) hnd
    have hsort_nd :
        (((terminalOf store).insertionSort byCreated).map TaskInfo.task_id).Nodup :=
      ((hperm.map _).nodup_iff).mpr hterm_nd
    have hvict_nd : ((victimsOf store).map TaskInfo.task_id).Nodup :=
      List.Nodup.sublist ((List.take_sublist _ _).map _) hsort_nd
    refine ⟨?_, ?_, ?_⟩
    · rw [hres]
      have hbridge : List.countP (fun t => t.status.isTerminal)
          (store.filter
            (fun t => ! (victimsOf store).any (fun v => v.task_id == t.task_id)))
          = List.countP
              (fun t => ! (victimsOf store).any (fun v => v.task_id == t.task_id))
              (terminalOf store) := by
        unfold terminalOf
        rw [List.countP_filter, List.countP_filter]
        exact List.countP_congr (fun t _ => by simp [Bool.and_comm])
      unfold terminalCount terminalOf at hlen ⊢
      rw [← List.countP_eq_length_filter]
      unfold terminalOf at hbridge
      rw [hbridge,
        countP_remove_by_id (victimsOf store) (store.filter (fun t => t.status.isTerminal))
          (by exact hterm_nd) (by exact hv_terms) hvict_nd]
      unfold terminalOf at hvl
      rw [hvl]
      have hm : max_history = 100 := rfl
      omega
    · rw [hres, List.filter_filter]
      apply List.filter_congr
      intro t ht
      by_cases hterm : t.status.isTerminal = true
      · simp [hterm]
      · have hpred :
            ((victimsOf store).any (fun v => v.task_id == t.task_id)) = false := by
          rw [Bool.eq_false_iff]
          intro hany
          obtain ⟨v, hv, hbeq⟩ := List.any_eq_true.mp hany
          have hveq : v = t := List.inj_on_of_nodup_map hnd (hv_store v hv) ht
            (by simpa using hbeq)
          exact hterm (hveq ▸ (List.mem_filter.mp (hv_terms v hv)).2)
        simp [hterm, hpred]
    · intro e he hnotin
      have hpredf :
          ((victimsOf store).any (fun v => v.task_id == e.task_id)) = true := by
        by_contra hf
        apply hnotin
        rw [hres]
        exact List.mem_filter.mpr ⟨he, by simp [Bool.eq_false_iff.mpr hf]⟩
      obtain ⟨v, hv, hbeq⟩ := List.any_eq_true.mp hpredf
      have hveq : v = e := List.inj_on_of_nodup_map hnd (hv_store v hv) he
        (by simpa using hbeq)
      have hev : e ∈ victimsOf store := hveq ▸ hv
      refine ⟨(List.mem_filter.mp (hv_terms e hev)).2, ?_⟩
      intro k hk hkterm
      rw [hres] at hk
      obtain ⟨hkstore, hkpred⟩ := List.mem_filter.mp hk
      have hkterms : k ∈ terminalOf store := List.mem_filter.mpr ⟨hkstore, hkterm⟩
      have hksorted : k ∈ (terminalOf store).insertionSort byCreated :=
        hperm.mem_iff.mpr hkterms
      have hknotv : k ∉ victimsOf store := by
        intro hkv
        have hany : (victimsOf store).any (fun v => v.task_id == k.task_id) = true :=
          List.any_eq_true.mpr ⟨k, hkv, by simp⟩
        simp [hany] at hkpred
      have hkdrop : k ∈ ((terminalOf store).insertionSort byCreated).drop
          ((terminalOf store).length - max_history) := by
        have hsplit := List.take_append_drop
          ((terminalOf store).length - max_history)
          ((terminalOf store).insertionSort byCreated)
        rw [← hsplit] at hksorted
        rcases List.mem_append.mp hksorted with h1 | h2
        · exact absurd h1 hknotv
        · exact h2
      have hsorted : List.Pairwise byCreated
          ((terminalOf store).insertionSort byCreated) :=
        List.sorted_insertionSort byCreated (terminalOf store)
      rw [← List.take_append_drop ((terminalOf store).length - max_history)
        ((terminalOf store).insertionSort byCreated)] at hsorted
      exact (List.pairwise_append.mp hsorted).2.2 e hev k hkdrop
  · have hres : cleanup_old store = store := by
      unfold cleanup_old
      rw [if_neg hlen]
    refine ⟨?_, by rw [hres], ?_⟩
    · rw [hres]
      have hm : max_history = 100 := rfl
      unfold terminalCount
      omega
    · intro e he hnotin
      rw [hres] at hnotin
      exact absurd he hnotin

/-- C6 witness: the amended statement at a concrete two-record store. -/
theorem claim6_witness :
    (([samplePending, sampleDone].map TaskInfo.task_id).Nodup) ∧
    terminalCount (cleanup_old [samplePending, sampleDone])
        = min (terminalCount [samplePending, sampleDone]) max_history ∧
    (cleanup_old [samplePending, sampleDone]).filter
        (fun t => ! t.status.isTerminal)
      = [samplePending, sampleDone].filter (fun t => ! t.status.isTerminal) :=
  ⟨by decide, (claim6_bounded_history _ (by decide)).1,
    (claim6_bounded_history _ (by decide)).2.1⟩

end WinRemote
